import Mathlib

/-!
Shallow embedding of the KittyCAD dependabot-org-config tool (src/main.rs,
src/dependabot.rs, src/github.rs) for verification of its specification.

Conventions of the embedding:
* Rust `Option<T>` becomes `Option T`; `u32` becomes `Nat` (no overflow
  arithmetic occurs in the modelled code paths).
* `IndexMap<String, Group>` (insertion ordered) becomes an association list
  `List (String × Group)`; `HashMap<String, _>` used for override lookup
  becomes an association list queried with `List.lookup`.
* A Rust `panic!` is modelled as `Except.error` carrying the panic message;
  error propagation through the per-repository loop models stack unwinding
  of the whole process.
-/

namespace Ciso

/-- Mirrors `Schedule` in src/dependabot.rs. -/
structure Schedule where
  interval : String
  day : Option String
  time : Option String
  timezone : Option String
  cronjob : Option String
deriving DecidableEq, Repr

/-- Mirrors `#[derive(Default)]` for `Schedule`. -/
def Schedule.default : Schedule :=
  { interval := "", day := none, time := none, timezone := none, cronjob := none }

/-- Mirrors `CommitMessage` in src/dependabot.rs; the Rust fields `prefix`
and `include` are Lean keywords and are rendered `prefix_` / `include_`. -/
structure CommitMessage where
  prefix_ : Option String
  prefix_development : Option String
  include_ : Option String
deriving DecidableEq, Repr

/-- Mirrors `PullRequestBranchName` in src/dependabot.rs. -/
structure PullRequestBranchName where
  separator : String
deriving DecidableEq, Repr

/-- Mirrors `DependencyRule` in src/dependabot.rs. -/
structure DependencyRule where
  dependency_name : Option String
  dependency_type : Option String
  versions : Option (List String)
  update_types : Option (List String)
deriving DecidableEq, Repr

/-- Mirrors `Group` in src/dependabot.rs. -/
structure Group where
  applies_to : Option String
  dependency_type : Option String
  patterns : Option (List String)
  exclude_patterns : Option (List String)
  update_types : Option (List String)
deriving DecidableEq, Repr

/-- Mirrors `#[derive(Default)]` for `Group`. -/
def Group.default : Group :=
  { applies_to := none, dependency_type := none, patterns := none,
    exclude_patterns := none, update_types := none }

/-- Mirrors `Cooldown` in src/dependabot.rs; Rust field `include` is a Lean
keyword and is rendered `include_`. -/
structure Cooldown where
  default_days : Option Nat
  semver_major_days : Option Nat
  semver_minor_days : Option Nat
  semver_patch_days : Option Nat
  include_ : Option (List String)
  exclude : Option (List String)
deriving DecidableEq, Repr

/-- Mirrors `#[derive(Default)]` for `Cooldown`. -/
def Cooldown.default : Cooldown :=
  { default_days := none, semver_major_days := none, semver_minor_days := none,
    semver_patch_days := none, include_ := none, exclude := none }

/-- Mirrors `Registry` in src/dependabot.rs; Rust field `r#type` is rendered
`type_`. -/
structure Registry where
  type_ : String
  url : String
  username : Option String
  password : Option String
  token : Option String
  replaces_base : Option Bool
deriving DecidableEq, Repr

/-- Mirrors `Update` in src/dependabot.rs. -/
structure Update where
  package_ecosystem : String
  directory : Option String
  directories : Option (List String)
  schedule : Schedule
  allow : Option (List DependencyRule)
  ignore : Option (List DependencyRule)
  assignees : Option (List String)
  commit_message : Option CommitMessage
  labels : Option (List String)
  milestone : Option Nat
  open_pull_requests_limit : Option Nat
  registries : Option (List String)
  reviewers : Option (List String)
  target_branch : Option String
  vendor : Option Bool
  versioning_strategy : Option String
  insecure_external_code_execution : Option Bool
  pull_request_branch_name : Option PullRequestBranchName
  rebase_strategy : Option String
  groups : Option (List (String × Group))
  cooldown : Option Cooldown
deriving DecidableEq, Repr

/-- Mirrors `#[derive(Default)]` for `Update`. -/
def Update.default : Update :=
  { package_ecosystem := "", directory := none, directories := none,
    schedule := Schedule.default, allow := none, ignore := none,
    assignees := none, commit_message := none, labels := none,
    milestone := none, open_pull_requests_limit := none, registries := none,
    reviewers := none, target_branch := none, vendor := none,
    versioning_strategy := none, insecure_external_code_execution := none,
    pull_request_branch_name := none, rebase_strategy := none,
    groups := none, cooldown := none }

/-- Mirrors `UpdateOverride` in src/dependabot.rs: same shape as `Update`
with an optional schedule. -/
structure UpdateOverride where
  package_ecosystem : String
  directory : Option String
  directories : Option (List String)
  schedule : Option Schedule
  allow : Option (List DependencyRule)
  ignore : Option (List DependencyRule)
  assignees : Option (List String)
  commit_message : Option CommitMessage
  labels : Option (List String)
  milestone : Option Nat
  open_pull_requests_limit : Option Nat
  registries : Option (List String)
  reviewers : Option (List String)
  target_branch : Option String
  vendor : Option Bool
  versioning_strategy : Option String
  insecure_external_code_execution : Option Bool
  pull_request_branch_name : Option PullRequestBranchName
  rebase_strategy : Option String
  groups : Option (List (String × Group))
  cooldown : Option Cooldown
deriving DecidableEq, Repr

/-- Mirrors `#[derive(Default)]` for `UpdateOverride`. -/
def UpdateOverride.default : UpdateOverride :=
  { package_ecosystem := "", directory := none, directories := none,
    schedule := none, allow := none, ignore := none,
    assignees := none, commit_message := none, labels := none,
    milestone := none, open_pull_requests_limit := none, registries := none,
    reviewers := none, target_branch := none, vendor := none,
    versioning_strategy := none, insecure_external_code_execution := none,
    pull_request_branch_name := none, rebase_strategy := none,
    groups := none, cooldown := none }

/-- Mirrors `DependabotConfig` in src/dependabot.rs; the `registries`
`HashMap` is modelled as an association list. -/
structure DependabotConfig where
  version : Nat
  updates : List Update
  registries : Option (List (String × Registry))
deriving DecidableEq, Repr

/-- Mirrors `Update::override_config` in src/dependabot.rs: field-by-field
merge where the override's value wins when present (`Option::or`), the
schedule falls back via `unwrap_or`, and `package_ecosystem` is kept from
`self`. -/
def Update.override_config (self : Update) (other : UpdateOverride) : Update :=
  { package_ecosystem := self.package_ecosystem
    directory := other.directory.or self.directory
    directories := other.directories.or self.directories
    schedule := other.schedule.getD self.schedule
    allow := other.allow.or self.allow
    ignore := other.ignore.or self.ignore
    assignees := other.assignees.or self.assignees
    commit_message := other.commit_message.or self.commit_message
    labels := other.labels.or self.labels
    milestone := other.milestone.or self.milestone
    open_pull_requests_limit :=
      other.open_pull_requests_limit.or self.open_pull_requests_limit
    registries := other.registries.or self.registries
    reviewers := other.reviewers.or self.reviewers
    target_branch := other.target_branch.or self.target_branch
    vendor := other.vendor.or self.vendor
    versioning_strategy := other.versioning_strategy.or self.versioning_strategy
    insecure_external_code_execution :=
      other.insecure_external_code_execution.or self.insecure_external_code_execution
    pull_request_branch_name :=
      other.pull_request_branch_name.or self.pull_request_branch_name
    rebase_strategy := other.rebase_strategy.or self.rebase_strategy
    groups := other.groups.or self.groups
    cooldown := other.cooldown.or self.cooldown }

/-- Mirrors the `Ecosystem` enum in src/main.rs. -/
inductive Ecosystem where
  | Cargo
  | Npm
  | Go
  | Submodule
  | Terraform
  | Pip
  | Uv
  | Bundler
  | Docker
  | GitHubActions
deriving DecidableEq, Repr

/-- Mirrors `impl Display for Ecosystem` in src/main.rs. -/
def Ecosystem.toString : Ecosystem → String
  | .Cargo => "cargo"
  | .Npm => "npm"
  | .Go => "gomod"
  | .Submodule => "gitsubmodule"
  | .Terraform => "terraform"
  | .Pip => "pip"
  | .Uv => "uv"
  | .Bundler => "bundler"
  | .Docker => "docker"
  | .GitHubActions => "github-actions"

/-- The per-repository override map `DependabotOverrides.updates`
(`HashMap<String, Vec<UpdateOverride>>` in src/main.rs), as an association
list from repository name to override list. -/
abbrev OverridesMap := List (String × List UpdateOverride)

/-- Mirrors `apply_override` in src/main.rs. The `panic!("found more than
one override")` on an ambiguous override is modelled as `Except.error`. -/
def apply_override (update : Update) (dependabot_overrides : OverridesMap)
    (repoName : String) (ecosystem : Ecosystem) : Except String Update :=
  match dependabot_overrides.lookup repoName with
  | some override_updates =>
    let matching_overrides := override_updates.filter
      (fun u => u.package_ecosystem == ecosystem.toString)
    if matching_overrides.length > 1 then
      .error "found more than one override"
    else
      match matching_overrides.head? with
      | some override_update => .ok (update.override_config override_update)
      | none => .ok update
  | none => .ok update

/-- Splitting a character list at every `'/'`, mirroring Rust's
`str::split("/")` (which yields at least one, possibly empty, segment). -/
def splitSlashChars : List Char → List (List Char)
  | [] => [[]]
  | c :: rest =>
    match splitSlashChars rest with
    | [] => [[]]
    | h :: t => if c = '/' then [] :: h :: t else (c :: h) :: t

/-- Rust `path.split("/")` as a list of string segments. -/
def split_on_slash (s : String) : List String :=
  (splitSlashChars s.data).map (fun l => String.mk l)

/-- Mirrors the raw-path normalization in `main` (src/main.rs lines
250-254): skip the first four slash-separated segments, drop the trailing
filename component, prepend `"/"`. The Rust slice `&path[..path.len() - 1]`
panics when the skipped list is empty (the `usize` upper bound underflows);
that panic is modelled as `none`. -/
def normalize_path (path : String) : Option String :=
  let parts := (split_on_slash path).drop 4
  if parts.isEmpty then none
  else some ("/" ++ String.intercalate "/" (parts.take (parts.length - 1)))

/-- The `default_schedule` constructed in `main` (src/main.rs). -/
def default_schedule : Schedule :=
  { Schedule.default with
    interval := "weekly"
    day := some "saturday"
    time := none
    timezone := some "America/Los_Angeles" }

/-- The `open_pull_requests_limit` constructed in `main` (src/main.rs). -/
def open_pull_requests_limit : Option Nat := some 5

/-- The `default_groups` `IndexMap` constructed in `main` (src/main.rs),
kept in insertion order. -/
def default_groups : List (String × Group) :=
  [ ("security",
     { Group.default with
       applies_to := some "security-updates"
       update_types := some ["minor", "patch"]
       exclude_patterns := some ["kittycad*"] }),
    ("security-major",
     { Group.default with
       applies_to := some "security-updates"
       update_types := some ["major"]
       exclude_patterns := some ["kittycad*"] }),
    ("patch",
     { Group.default with
       applies_to := some "version-updates"
       update_types := some ["patch"]
       exclude_patterns := some ["kittycad*"] }),
    ("major",
     { Group.default with
       applies_to := some "version-updates"
       update_types := some ["major"]
       exclude_patterns := some ["kittycad*"] }),
    ("minor",
     { Group.default with
       applies_to := some "version-updates"
       update_types := some ["minor", "patch"]
       exclude_patterns := some ["kittycad*"] }) ]

/-- The `default_cooldown` constructed in `main` (src/main.rs). -/
def default_cooldown : Cooldown :=
  { Cooldown.default with
    default_days := some 7
    exclude := some ["*kcl*", "*zoo*", "*kittycad*"] }

/-- The `gha_update` baseline entry built in `main` (src/main.rs) when the
repository has a `.github/workflows` directory. -/
def gha_update : Update :=
  { Update.default with
    package_ecosystem := "github-actions"
    directory := some "/"
    schedule := default_schedule
    open_pull_requests_limit := open_pull_requests_limit
    groups := some default_groups
    cooldown := some default_cooldown }

/-- The baseline entry built in `main` (src/main.rs lines 269-283) for a
detected `(path, ecosystem)` pair: default schedule and groups, cooldown
absent for the submodule ecosystem and the default cooldown otherwise. -/
def mk_detected_update (path : String) (ecosystem : Ecosystem) : Update :=
  { Update.default with
    package_ecosystem := ecosystem.toString
    directory := some path
    schedule := default_schedule
    groups := some default_groups
    reviewers := none
    open_pull_requests_limit := open_pull_requests_limit
    cooldown :=
      match ecosystem with
      | .Submodule => none
      | _ => some default_cooldown }

/-- The detected-ecosystems loop of `main` (src/main.rs lines 250-292):
normalize each raw path, drop candidates that conflict with an
already-accepted entry (same directory and ecosystem string), otherwise
build the baseline entry, apply overrides, and push. Panics propagate as
`Except.error`. -/
def build_updates_go (dependabot_overrides : OverridesMap) (repoName : String) :
    List (String × Ecosystem) → List Update → Except String (List Update)
  | [], updates => .ok updates
  | (rawPath, ecosystem) :: rest, updates =>
    match normalize_path rawPath with
    | none => .error "attempt to subtract with overflow"
    | some path =>
      if updates.any (fun u =>
          u.directory == some path && u.package_ecosystem == ecosystem.toString) then
        build_updates_go dependabot_overrides repoName rest updates
      else
        match apply_override (mk_detected_update path ecosystem)
            dependabot_overrides repoName ecosystem with
        | .error e => .error e
        | .ok update =>
          build_updates_go dependabot_overrides repoName rest (updates ++ [update])

/-- The updates-building portion of `main` (src/main.rs lines 227-292) for
one repository: the CI (`github-actions`) entry first when the repository
has a workflows directory, then the detected entries. -/
def build_updates (dependabot_overrides : OverridesMap) (repoName : String)
    (has_gha : Bool) (ecosystems : List (String × Ecosystem)) :
    Except String (List Update) :=
  match (if has_gha then
      (apply_override gha_update dependabot_overrides repoName
        Ecosystem.GitHubActions).map (fun u => [u])
    else .ok []) with
  | .error e => .error e
  | .ok init => build_updates_go dependabot_overrides repoName ecosystems init

/-- The document assembly in `main` (src/main.rs lines 294-307): registries
are `none` unless overrides supplied some, and no document is produced when
the update list is empty. -/
def build_config (registries : List (String × Registry)) (updates : List Update) :
    Option DependabotConfig :=
  if updates.isEmpty then none
  else
    some { version := 2
           updates := updates
           registries := if registries.isEmpty then none else some registries }

/-- The per-repository data `main`'s loop consumes: repository name,
whether `.github/workflows` exists, and the detected `(rawPath, ecosystem)`
pairs for it. -/
structure RepoInput where
  name : String
  has_gha : Bool
  ecosystems : List (String × Ecosystem)
deriving DecidableEq, Repr

/-- The repository loop of `main` (src/main.rs line 177 onward) restricted
to the updates computation: repositories are processed in order and a panic
(`Except.error`) unwinds the whole loop, producing no result for any
repository. -/
def processRepos (dependabot_overrides : OverridesMap) :
    List RepoInput → Except String (List (String × List Update))
  | [] => .ok []
  | repo :: rest =>
    match build_updates dependabot_overrides repo.name repo.has_gha
        repo.ecosystems with
    | .error e => .error e
    | .ok updates =>
      (processRepos dependabot_overrides rest).map
        (fun acc => (repo.name, updates) :: acc)

/-- The panic message of `get_all` in src/github.rs. -/
def rate_limit_msg : String :=
  "We dont want to hit the rate limit of Github. Aborting after 1000 elements fetched."

/-- The loop of `get_all` in src/github.rs, with the fetched page supplied
by a pure `fetch_page` function: stop with the accumulated items when a
page is empty, extend and advance otherwise, and panic (modelled as
`Except.error`) when the page counter exceeds 5. -/
def get_all_go (fetch_page : Nat → List α) (page : Nat) (items : List α) :
    Except String (List α) :=
  let response := fetch_page page
  if response.isEmpty then .ok items
  else
    if page + 1 > 5 then .error rate_limit_msg
    else get_all_go fetch_page (page + 1) (items ++ response)
termination_by 6 - page
decreasing_by omega

/-- Mirrors `get_all` in src/github.rs: paginate from page 1 with an empty
accumulator. -/
def get_all (fetch_page : Nat → List α) : Except String (List α) :=
  get_all_go fetch_page 1 []

/-- The concatenation `fetch_page 1 ++ ... ++ fetch_page m`, used to state
what `get_all` accumulates. -/
def pagesUpTo (fetch_page : Nat → List α) : Nat → List α
  | 0 => []
  | m + 1 => pagesUpTo fetch_page m ++ fetch_page (m + 1)

/-- Absorption for `Option.or`, mirroring reapplication of a merge. -/
theorem option_or_absorb (a b : Option α) : a.or (a.or b) = a.or b := by
  cases a <;> rfl

/-- Absorption for `Option.getD`, mirroring reapplication of a merge. -/
theorem option_getD_absorb (a : Option α) (b : α) :
    a.getD (a.getD b) = a.getD b := by
  cases a <;> rfl

/-- Merging the same override twice changes nothing after the first time. -/
theorem override_config_idem (u : Update) (o : UpdateOverride) :
    (u.override_config o).override_config o = u.override_config o := by
  simp [Update.override_config, option_or_absorb, option_getD_absorb]

/-- C3: for every baseline entry and every override set with at most one
matching override for the entry's ecosystem kind (so that the first
application succeeds), `apply_override` is idempotent: applying the same
override set to the already-merged entry returns it unchanged. -/
theorem apply_override_idem (u : Update) (ov : OverridesMap) (name : String)
    (kind : Ecosystem) (u' : Update)
    (h : apply_override u ov name kind = .ok u') :
    apply_override u' ov name kind = .ok u' := by
  cases hl : ov.lookup name with
  | none =>
    unfold apply_override at h ⊢
    simp only [hl] at h ⊢
  | some l =>
    unfold apply_override at h ⊢
    simp only [hl] at h ⊢
    by_cases hlen : (l.filter
        (fun o => o.package_ecosystem == kind.toString)).length > 1
    · rw [if_pos hlen] at h; cases h
    · rw [if_neg hlen] at h ⊢
      cases hh : (l.filter
          (fun o => o.package_ecosystem == kind.toString)).head? with
      | none =>
        simp only [hh] at h ⊢
      | some o =>
        simp only [hh] at h ⊢
        simp only [Except.ok.injEq] at h
        subst h
        rw [override_config_idem]

/-- A concrete override setting a milestone, used by witnesses. -/
def w3_o : UpdateOverride :=
  { UpdateOverride.default with
    package_ecosystem := "github-actions", milestone := some 3 }

/-- A concrete override map holding `w3_o` for repository `repo1`. -/
def w3_ov : OverridesMap := [("repo1", [w3_o])]

/-- The entry obtained by merging `w3_o` into the CI baseline entry. -/
def w3_u : Update := gha_update.override_config w3_o

/-- C3 witness: a concrete baseline entry and override set on which
`apply_override` succeeds and is idempotent. -/
theorem apply_override_idem_witness :
    apply_override w3_u w3_ov "repo1" Ecosystem.GitHubActions = .ok w3_u :=
  apply_override_idem gha_update w3_ov "repo1" Ecosystem.GitHubActions w3_u rfl

/-- C7: the baseline entry built for a detected `(path, ecosystemKind)`
pair has no cooldown for the submodule ecosystem, and the default cooldown
for every other ecosystem kind. -/
theorem mk_detected_update_cooldown (path : String) (kind : Ecosystem) :
    (mk_detected_update path kind).cooldown =
      if kind = Ecosystem.Submodule then none else some default_cooldown := by
  cases kind <;> rfl

/-- C9: applying `apply_override` with zero matching overrides for the
entry's ecosystem kind returns the entry unchanged. -/
theorem apply_override_no_match (u : Update) (ov : OverridesMap)
    (name : String) (kind : Ecosystem)
    (h : ∀ l, ov.lookup name = some l →
        l.filter (fun o => o.package_ecosystem == kind.toString) = []) :
    apply_override u ov name kind = .ok u := by
  unfold apply_override
  cases hl : ov.lookup name with
  | none => rfl
  | some l => simp [h l hl]

/-- C9 witness: the empty override map leaves a concrete entry unchanged. -/
theorem apply_override_no_match_witness :
    apply_override Ciso.gha_update [] "repo1" Ecosystem.GitHubActions
      = .ok Ciso.gha_update :=
  apply_override_no_match _ _ _ _ (fun _ hl => by cases hl)

/-- C8: an override that sets only `milestone` merges into a baseline entry
by replacing `milestone` and leaving every other field — including the
ecosystem kind — equal to the baseline's. -/
theorem override_config_only_milestone (u : Update) (o : UpdateOverride)
    (m : Nat) (hm : o.milestone = some m)
    (h1 : o.directory = none) (h2 : o.directories = none)
    (h3 : o.schedule = none) (h4 : o.allow = none) (h5 : o.ignore = none)
    (h6 : o.assignees = none) (h7 : o.commit_message = none)
    (h8 : o.labels = none) (h9 : o.open_pull_requests_limit = none)
    (h10 : o.registries = none) (h11 : o.reviewers = none)
    (h12 : o.target_branch = none) (h13 : o.vendor = none)
    (h14 : o.versioning_strategy = none)
    (h15 : o.insecure_external_code_execution = none)
    (h16 : o.pull_request_branch_name = none)
    (h17 : o.rebase_strategy = none) (h18 : o.groups = none)
    (h19 : o.cooldown = none) :
    u.override_config o = { u with milestone := some m } := by
  obtain ⟨pe, a1, a2, a3, a4, a5, a6, a7, a8, a9, a10, a11, a12,
    a13, a14, a15, a16, a17, a18, a19, a20⟩ := o
  simp only at hm h1 h2 h3 h4 h5 h6 h7 h8 h9 h10 h11 h12 h13 h14 h15 h16 h17 h18 h19
  subst hm h1 h2 h3 h4 h5 h6 h7 h8 h9 h10 h11 h12 h13 h14 h15 h16 h17 h18 h19
  rfl

/-- A concrete override that sets only the milestone field. -/
def w8_o : UpdateOverride :=
  { UpdateOverride.default with
    package_ecosystem := "github-actions", milestone := some 10 }

/-- C8 witness: a concrete milestone-only override applied to the CI
baseline entry. -/
theorem override_config_only_milestone_witness :
    gha_update.override_config w8_o = { gha_update with milestone := some 10 } :=
  override_config_only_milestone gha_update w8_o 10 rfl rfl rfl rfl rfl rfl
    rfl rfl rfl rfl rfl rfl rfl rfl rfl rfl rfl rfl rfl rfl

/-- C10: raw-path normalization is partial: with at least five
slash-separated segments it returns a directory string starting with `"/"`;
with fewer it hits the Rust slice-bound underflow panic (modelled `none`). -/
theorem normalize_path_partiality (raw : String) :
    (5 ≤ (split_on_slash raw).length →
      ∃ t, normalize_path raw = some ("/" ++ t)) ∧
    ((split_on_slash raw).length < 5 → normalize_path raw = none) := by
  constructor
  · intro h
    unfold normalize_path
    have hne : ((split_on_slash raw).drop 4).isEmpty = false := by
      rw [List.isEmpty_eq_false_iff_exists_mem]
      have hlen : ((split_on_slash raw).drop 4).length =
          (split_on_slash raw).length - 4 := List.length_drop 4 _
      cases hd : (split_on_slash raw).drop 4 with
      | nil => rw [hd] at hlen; simp at hlen; omega
      | cons x xs => exact ⟨x, List.mem_cons_self x xs⟩
    simp [hne]
  · intro h
    unfold normalize_path
    have hd : (split_on_slash raw).drop 4 = [] :=
      List.drop_eq_nil_of_le (by omega)
    simp [hd]

/-- C10 witness: a provider-prefixed raw path with five segments normalizes
to a `"/"`-prefixed directory; a two-segment path hits the panic. -/
theorem normalize_path_partiality_witness :
    (∃ t, normalize_path "/repositories/848456627/contents/Cargo.toml"
      = some ("/" ++ t)) ∧
    normalize_path "a/b" = none :=
  ⟨(normalize_path_partiality "/repositories/848456627/contents/Cargo.toml").1
      (by decide),
   (normalize_path_partiality "a/b").2 (by decide)⟩

/-- A duplicate override for the cargo ecosystem. -/
def c1_o : UpdateOverride :=
  { UpdateOverride.default with package_ecosystem := "cargo" }

/-- An override map holding two cargo overrides for repository `bad`. -/
def c1_ov : OverridesMap := [("bad", [c1_o, c1_o])]

/-- A repository whose override set is ambiguous for cargo. -/
def c1_bad : RepoInput :=
  ⟨"bad", false, [("/repositories/1/contents/Cargo.toml", Ecosystem.Cargo)]⟩

/-- A repository with no overrides, processed after `c1_bad`. -/
def c1_good : RepoInput :=
  ⟨"good", false, [("/repositories/1/contents/Cargo.toml", Ecosystem.Cargo)]⟩

/-- C1 counterexample: with an ambiguous override for repository `bad`, the
whole run over `[bad, good]` aborts with the panic — no result is produced
for repository `good` — although `good` alone processes fine. -/
theorem ambiguous_override_aborts_whole_run_cex :
    processRepos c1_ov [c1_bad, c1_good] =
      .error "found more than one override" ∧
    (processRepos c1_ov [c1_good]).map (fun l => l.map (fun p => p.1)) =
      .ok ["good"] :=
  ⟨rfl, rfl⟩

/-- C1 (amended): more than one matching override for a processed ecosystem
kind makes `apply_override` fail fatally with the panic, and a fatal
failure while processing one repository aborts the entire run: the loop
unwinds with the error and no repository after the failing one is
processed. -/
theorem apply_override_ambiguous_fatal
    (ov : OverridesMap) (u : Update) (name : String) (kind : Ecosystem)
    (l : List UpdateOverride) (hl : ov.lookup name = some l)
    (hn : 1 < (l.filter
      (fun o => o.package_ecosystem == kind.toString)).length) :
    apply_override u ov name kind = .error "found more than one override" ∧
    ∀ (pre post : List RepoInput) (bad : RepoInput) (e : String),
      build_updates ov bad.name bad.has_gha bad.ecosystems = .error e →
      (∀ r ∈ pre, ∃ us,
        build_updates ov r.name r.has_gha r.ecosystems = .ok us) →
      processRepos ov (pre ++ bad :: post) = .error e := by
  constructor
  · unfold apply_override
    simp only [hl]
    rw [if_pos hn]
  · intro pre post bad e hbad hpre
    induction pre with
    | nil =>
      rw [List.nil_append]
      unfold processRepos
      simp only [hbad]
    | cons r rs ih =>
      obtain ⟨us, hus⟩ := hpre r (List.mem_cons_self r rs)
      have hrest := ih (fun x hx => hpre x (List.mem_cons_of_mem _ hx))
      rw [List.cons_append]
      unfold processRepos
      simp only [hus, hrest, Except.map]

/-- C1 witness: the amended statement instantiated on the concrete
ambiguous configuration of the counterexample. -/
theorem apply_override_ambiguous_fatal_witness :
    apply_override (mk_detected_update "/" Ecosystem.Cargo) c1_ov "bad"
      Ecosystem.Cargo = .error "found more than one override" ∧
    processRepos c1_ov ([c1_good] ++ c1_bad :: []) =
      .error "found more than one override" := by
  have h := apply_override_ambiguous_fatal c1_ov
    (mk_detected_update "/" Ecosystem.Cargo) "bad" Ecosystem.Cargo
    [c1_o, c1_o] rfl (by decide)
  refine ⟨h.1, h.2 [c1_good] [] c1_bad _ rfl ?_⟩
  intro r hr
  have hr' := List.mem_singleton.mp hr
  subst hr'
  exact ⟨_, rfl⟩

/-- An override that populates `directories` for the CI ecosystem. -/
def c2_o : UpdateOverride :=
  { UpdateOverride.default with
    package_ecosystem := "github-actions", directories := some ["/x"] }

/-- An override map holding `c2_o` for repository `repo2`. -/
def c2_ov : OverridesMap := [("repo2", [c2_o])]

/-- C2 counterexample: running the updates builder for a repository with a
CI config and an override that sets `directories` yields an output entry
with `directory` and `directories` simultaneously populated. -/
theorem directory_directories_both_populated_cex :
    (build_updates c2_ov "repo2" true []).map
      (fun us => us.map (fun u => (u.directory, u.directories)))
    = .ok [(some "/", some ["/x"])] :=
  rfl

/-- Merging keeps `directories` empty when the override does not set it. -/
theorem override_config_directories (u : Update) (o : UpdateOverride) :
    (u.override_config o).directories = o.directories.or u.directories :=
  rfl

/-- `apply_override` keeps `directories` empty when no override in the map
populates `directories`. -/
theorem apply_override_directories_none (ov : OverridesMap) (name : String)
    (kind : Ecosystem) (u u' : Update)
    (hov : ∀ n l, ov.lookup n = some l → ∀ o ∈ l, o.directories = none)
    (hu : u.directories = none)
    (h : apply_override u ov name kind = .ok u') :
    u'.directories = none := by
  unfold apply_override at h
  cases hl : ov.lookup name with
  | none =>
    simp only [hl, Except.ok.injEq] at h
    rw [← h]; exact hu
  | some l =>
    simp only [hl] at h
    by_cases hlen : (l.filter
        (fun o => o.package_ecosystem == kind.toString)).length > 1
    · rw [if_pos hlen] at h; cases h
    · rw [if_neg hlen] at h
      cases hh : (l.filter
          (fun o => o.package_ecosystem == kind.toString)).head? with
      | none =>
        simp only [hh, Except.ok.injEq] at h
        rw [← h]; exact hu
      | some o =>
        simp only [hh, Except.ok.injEq] at h
        have ho : o ∈ l :=
          List.mem_of_mem_filter (List.mem_of_mem_head? hh)
        rw [← h, override_config_directories, hov name l hl o ho, hu]
        rfl

/-- The detected-ecosystems loop keeps `directories` empty on every entry
when no override in the map populates `directories`. -/
theorem build_updates_go_directories_none (ov : OverridesMap) (name : String)
    (hov : ∀ n l, ov.lookup n = some l → ∀ o ∈ l, o.directories = none) :
    ∀ (eco : List (String × Ecosystem)) (acc us : List Update),
      (∀ u ∈ acc, u.directories = none) →
      build_updates_go ov name eco acc = .ok us →
      ∀ u ∈ us, u.directories = none := by
  intro eco
  induction eco with
  | nil =>
    intro acc us hacc h
    simp only [build_updates_go, Except.ok.injEq] at h
    rw [← h]; exact hacc
  | cons pe rest ih =>
    intro acc us hacc h
    obtain ⟨rawPath, ecosystem⟩ := pe
    simp only [build_updates_go] at h
    cases hn : normalize_path rawPath with
    | none => simp only [hn] at h; cases h
    | some path =>
      simp only [hn] at h
      by_cases hg : (acc.any (fun u => u.directory == some path &&
          u.package_ecosystem == ecosystem.toString)) = true
      · rw [if_pos hg] at h
        exact ih acc us hacc h
      · rw [if_neg hg] at h
        cases ha : apply_override (mk_detected_update path ecosystem) ov name
            ecosystem with
        | error e => rw [ha] at h; cases h
        | ok u' =>
          rw [ha] at h
          refine ih (acc ++ [u']) us ?_ h
          intro u hu
          rcases List.mem_append.mp hu with hu | hu
          · exact hacc u hu
          · rw [List.mem_singleton.mp hu]
            exact apply_override_directories_none ov name ecosystem _ _ hov
              rfl ha

/-- C2 (amended): every entry produced by `buildBaseline` has `directories`
unset, so `directory` and `directories` are never simultaneously populated
there; `applyOverride` preserves the invariant provided no override in the
map populates `directories` (an override that sets `directories` while the
baseline entry carries `directory` produces both populated). -/
theorem build_updates_directory_exclusive (ov : OverridesMap) (name : String)
    (has_gha : Bool) (eco : List (String × Ecosystem)) (us : List Update)
    (hov : ∀ n l, ov.lookup n = some l → ∀ o ∈ l, o.directories = none)
    (h : build_updates ov name has_gha eco = .ok us) :
    ∀ u ∈ us, u.directory = none ∨ u.directories = none := by
  have hall : ∀ u ∈ us, u.directories = none := by
    unfold build_updates at h
    cases has_gha with
    | false =>
      simp only [Bool.false_eq_true, if_false] at h
      exact build_updates_go_directories_none ov name hov eco [] us
        (fun u hu => absurd hu (List.not_mem_nil u)) h
    | true =>
      simp only [if_true] at h
      cases ha : apply_override gha_update ov name Ecosystem.GitHubActions with
      | error e => rw [ha] at h; cases h
      | ok u0 =>
        rw [ha] at h
        simp only [Except.map] at h
        refine build_updates_go_directories_none ov name hov eco [u0] us ?_ h
        intro u hu
        rw [List.mem_singleton.mp hu]
        exact apply_override_directories_none ov name Ecosystem.GitHubActions
          _ _ hov rfl ha
  exact fun u hu => Or.inr (hall u hu)

/-- C2 witness: the amended statement instantiated on a run with no
overrides and a CI entry. -/
theorem build_updates_directory_exclusive_witness :
    gha_update.directory = none ∨ gha_update.directories = none :=
  build_updates_directory_exclusive [] "repo2" true [] [gha_update]
    (fun _ _ hl => Option.noConfusion hl) rfl gha_update
    (List.mem_singleton.mpr rfl)

/-- A nonempty list has `isEmpty = false`. -/
theorem list_isEmpty_false_of_ne_nil (l : List α) (h : l ≠ []) :
    l.isEmpty = false := by
  cases l with
  | nil => exact absurd rfl h
  | cons a t => rfl

/-- One pagination step: a nonempty page within the cap is accumulated. -/
theorem get_all_go_step (fetch_page : Nat → List α) (page : Nat)
    (items : List α) (h : fetch_page page ≠ []) (h5 : ¬page + 1 > 5) :
    get_all_go fetch_page page items =
      get_all_go fetch_page (page + 1) (items ++ fetch_page page) := by
  conv_lhs => rw [get_all_go]
  simp [list_isEmpty_false_of_ne_nil _ h, h5]

/-- Pagination stops normally on an empty page. -/
theorem get_all_go_stop (fetch_page : Nat → List α) (page : Nat)
    (items : List α) (h : fetch_page page = []) :
    get_all_go fetch_page page items = .ok items := by
  unfold get_all_go
  simp [h]

/-- Pagination aborts when a nonempty page pushes the counter past 5. -/
theorem get_all_go_abort (fetch_page : Nat → List α) (page : Nat)
    (items : List α) (h : fetch_page page ≠ []) (h5 : page + 1 > 5) :
    get_all_go fetch_page page items = .error rate_limit_msg := by
  unfold get_all_go
  simp [list_isEmpty_false_of_ne_nil _ h, h5]

/-- C5: the generic pagination routine accumulates items page by page,
stops normally at the first empty page (returning the concatenation of the
pages before it), and treats five nonempty pages — exceeding the
self-imposed cap — as an unrecoverable abort. -/
theorem get_all_cap (fetch_page : Nat → List α) :
    ((∀ k, 1 ≤ k → k ≤ 5 → fetch_page k ≠ []) →
      get_all fetch_page = .error rate_limit_msg) ∧
    (∀ n, 1 ≤ n → n ≤ 5 →
      (∀ k, 1 ≤ k → k < n → fetch_page k ≠ []) →
      fetch_page n = [] →
      get_all fetch_page = .ok (pagesUpTo fetch_page (n - 1))) := by
  constructor
  · intro hne
    unfold get_all
    rw [get_all_go_step _ 1 _ (hne 1 (by omega) (by omega)) (by omega),
      get_all_go_step _ 2 _ (hne 2 (by omega) (by omega)) (by omega),
      get_all_go_step _ 3 _ (hne 3 (by omega) (by omega)) (by omega),
      get_all_go_step _ 4 _ (hne 4 (by omega) (by omega)) (by omega),
      get_all_go_abort _ 5 _ (hne 5 (by omega) (by omega)) (by omega)]
  · intro n h1 h5 hlt hempty
    unfold get_all
    interval_cases n
    · rw [get_all_go_stop _ 1 _ hempty]
      rfl
    · rw [get_all_go_step _ 1 _ (hlt 1 (by omega) (by omega)) (by omega),
        get_all_go_stop _ 2 _ hempty]
      simp [pagesUpTo]
    · rw [get_all_go_step _ 1 _ (hlt 1 (by omega) (by omega)) (by omega),
        get_all_go_step _ 2 _ (hlt 2 (by omega) (by omega)) (by omega),
        get_all_go_stop _ 3 _ hempty]
      simp [pagesUpTo]
    · rw [get_all_go_step _ 1 _ (hlt 1 (by omega) (by omega)) (by omega),
        get_all_go_step _ 2 _ (hlt 2 (by omega) (by omega)) (by omega),
        get_all_go_step _ 3 _ (hlt 3 (by omega) (by omega)) (by omega),
        get_all_go_stop _ 4 _ hempty]
      simp [pagesUpTo]
    · rw [get_all_go_step _ 1 _ (hlt 1 (by omega) (by omega)) (by omega),
        get_all_go_step _ 2 _ (hlt 2 (by omega) (by omega)) (by omega),
        get_all_go_step _ 3 _ (hlt 3 (by omega) (by omega)) (by omega),
        get_all_go_step _ 4 _ (hlt 4 (by omega) (by omega)) (by omega),
        get_all_go_stop _ 5 _ hempty]
      simp [pagesUpTo]

/-- A fetch function with every page nonempty. -/
def w5_full (k : Nat) : List Nat := [k]

/-- A fetch function whose third page is the first empty one. -/
def w5_two (k : Nat) : List Nat := if k < 3 then [k] else []

/-- C5 witness: five nonempty pages abort; an empty third page returns the
first two pages accumulated in order. -/
theorem get_all_cap_witness :
    get_all w5_full = .error rate_limit_msg ∧
    get_all w5_two = .ok (pagesUpTo w5_two 2) := by
  constructor
  · exact (get_all_cap w5_full).1 (fun k _ _ => by simp [w5_full])
  · refine (get_all_cap w5_two).2 3 (by omega) (by omega) ?_ (by decide)
    intro k h1 h2
    interval_cases k <;> simp [w5_two]

/-- An override that redirects cargo entries to directory `/o`. -/
def c4_o : UpdateOverride :=
  { UpdateOverride.default with
    package_ecosystem := "cargo", directory := some "/o" }

/-- An override map holding `c4_o` for repository `r4`. -/
def c4_ov : OverridesMap := [("r4", [c4_o])]

/-- Three detected cargo manifests, normalizing to `/a`, `/b` and `/o`. -/
def c4_eco : List (String × Ecosystem) :=
  [("/repositories/1/contents/a/Cargo.toml", Ecosystem.Cargo),
   ("/repositories/1/contents/b/Cargo.toml", Ecosystem.Cargo),
   ("/repositories/1/contents/o/Cargo.toml", Ecosystem.Cargo)]

/-- C4 counterexample: with an override that rewrites the cargo directory
to `/o`, the run over `c4_eco` drops the third candidate (3 detected, 2
entries in the output) via the conflict check, yet the final update list
holds two entries for the pair `(/o, cargo)` — not exactly one. -/
theorem conflict_drop_not_unique_cex :
    (build_updates c4_ov "r4" false c4_eco).map
      (fun us => (us.length, us.countP (fun u =>
        u.directory == some "/o" && u.package_ecosystem == "cargo")))
    = .ok (2, 2) :=
  rfl

/-- Merging never changes the ecosystem kind. -/
theorem override_config_pkg (u : Update) (o : UpdateOverride) :
    (u.override_config o).package_ecosystem = u.package_ecosystem :=
  rfl

/-- `apply_override` never changes the ecosystem kind. -/
theorem apply_override_pkg (ov : OverridesMap) (name : String)
    (kind : Ecosystem) (u u' : Update)
    (h : apply_override u ov name kind = .ok u') :
    u'.package_ecosystem = u.package_ecosystem := by
  unfold apply_override at h
  cases hl : ov.lookup name with
  | none =>
    simp only [hl, Except.ok.injEq] at h
    rw [← h]
  | some l =>
    simp only [hl] at h
    by_cases hlen : (l.filter
        (fun o => o.package_ecosystem == kind.toString)).length > 1
    · rw [if_pos hlen] at h; cases h
    · rw [if_neg hlen] at h
      cases hh : (l.filter
          (fun o => o.package_ecosystem == kind.toString)).head? with
      | none => simp only [hh, Except.ok.injEq] at h; rw [← h]
      | some o =>
        simp only [hh, Except.ok.injEq] at h
        rw [← h, override_config_pkg]

/-- `apply_override` keeps `directory` unchanged when no override in the
map populates `directory`. -/
theorem apply_override_directory_eq (ov : OverridesMap) (name : String)
    (kind : Ecosystem) (u u' : Update)
    (hov : ∀ n l, ov.lookup n = some l → ∀ o ∈ l, o.directory = none)
    (h : apply_override u ov name kind = .ok u') :
    u'.directory = u.directory := by
  unfold apply_override at h
  cases hl : ov.lookup name with
  | none =>
    simp only [hl, Except.ok.injEq] at h
    rw [← h]
  | some l =>
    simp only [hl] at h
    by_cases hlen : (l.filter
        (fun o => o.package_ecosystem == kind.toString)).length > 1
    · rw [if_pos hlen] at h; cases h
    · rw [if_neg hlen] at h
      cases hh : (l.filter
          (fun o => o.package_ecosystem == kind.toString)).head? with
      | none => simp only [hh, Except.ok.injEq] at h; rw [← h]
      | some o =>
        simp only [hh, Except.ok.injEq] at h
        have ho : o ∈ l :=
          List.mem_of_mem_filter (List.mem_of_mem_head? hh)
        rw [← h]
        show (o.directory.or u.directory) = u.directory
        rw [hov name l hl o ho]
        rfl

/-- The detected-ecosystems loop keeps the accepted entries pairwise
distinct on the `(directory, ecosystem kind)` key, provided no override
rewrites `directory`. -/
theorem build_updates_go_pairwise (ov : OverridesMap) (name : String)
    (hov : ∀ n l, ov.lookup n = some l → ∀ o ∈ l, o.directory = none) :
    ∀ (eco : List (String × Ecosystem)) (acc us : List Update),
      acc.Pairwise (fun a b => a.directory ≠ b.directory ∨
        a.package_ecosystem ≠ b.package_ecosystem) →
      build_updates_go ov name eco acc = .ok us →
      us.Pairwise (fun a b => a.directory ≠ b.directory ∨
        a.package_ecosystem ≠ b.package_ecosystem) := by
  intro eco
  induction eco with
  | nil =>
    intro acc us hacc h
    simp only [build_updates_go, Except.ok.injEq] at h
    rw [← h]; exact hacc
  | cons pe rest ih =>
    intro acc us hacc h
    obtain ⟨rawPath, ecosystem⟩ := pe
    simp only [build_updates_go] at h
    cases hn : normalize_path rawPath with
    | none => simp only [hn] at h; cases h
    | some path =>
      simp only [hn] at h
      by_cases hg : (acc.any (fun u => u.directory == some path &&
          u.package_ecosystem == ecosystem.toString)) = true
      · rw [if_pos hg] at h
        exact ih acc us hacc h
      · rw [if_neg hg] at h
        cases ha : apply_override (mk_detected_update path ecosystem) ov name
            ecosystem with
        | error e => rw [ha] at h; cases h
        | ok u' =>
          rw [ha] at h
          refine ih (acc ++ [u']) us ?_ h
          have hdir : u'.directory = some path :=
            apply_override_directory_eq ov name ecosystem _ _ hov ha
          have hpkg : u'.package_ecosystem = ecosystem.toString :=
            apply_override_pkg ov name ecosystem _ _ ha
          rw [List.pairwise_append]
          refine ⟨hacc, List.pairwise_singleton _ _, ?_⟩
          intro a hamem b hbmem
          rw [List.mem_singleton.mp hbmem]
          simp only [List.any_eq_true, Bool.and_eq_true, beq_iff_eq] at hg
          push_neg at hg
          rw [hdir, hpkg]
          by_cases hd : a.directory = some path
          · exact Or.inr (hg a hamem hd)
          · exact Or.inl hd

/-- C4 (amended): a candidate whose normalized directory and ecosystem kind
match an already-accepted entry is dropped (not merged, no error); and
provided no override rewrites the `directory` field, the final update list
holds at most one entry per `(directory, ecosystem kind)` pair — with a
directory-rewriting override, duplicates can slip past the check. -/
theorem conflict_candidate_dropped (ov : OverridesMap) (name : String) :
    (∀ (rawPath : String) (kind : Ecosystem)
        (rest : List (String × Ecosystem)) (acc : List Update) (path : String),
      normalize_path rawPath = some path →
      (acc.any (fun u => u.directory == some path &&
        u.package_ecosystem == kind.toString)) = true →
      build_updates_go ov name ((rawPath, kind) :: rest) acc =
        build_updates_go ov name rest acc) ∧
    (∀ (has_gha : Bool) (eco : List (String × Ecosystem)) (us : List Update),
      (∀ n l, ov.lookup n = some l → ∀ o ∈ l, o.directory = none) →
      build_updates ov name has_gha eco = .ok us →
      us.Pairwise (fun a b => a.directory ≠ b.directory ∨
        a.package_ecosystem ≠ b.package_ecosystem)) := by
  constructor
  · intro rawPath kind rest acc path hnorm hg
    simp only [build_updates_go, hnorm]
    rw [if_pos hg]
  · intro has_gha eco us hov h
    unfold build_updates at h
    cases has_gha with
    | false =>
      simp only [Bool.false_eq_true, if_false] at h
      exact build_updates_go_pairwise ov name hov eco [] us List.Pairwise.nil h
    | true =>
      simp only [if_true] at h
      cases ha : apply_override gha_update ov name Ecosystem.GitHubActions with
      | error e => rw [ha] at h; cases h
      | ok u0 =>
        rw [ha] at h
        simp only [Except.map] at h
        exact build_updates_go_pairwise ov name hov eco [u0] us
          (List.pairwise_singleton _ _) h

/-- C4 witness: the amended statement instantiated on a concrete conflicting
candidate and on a concrete override-free run. -/
theorem conflict_candidate_dropped_witness :
    build_updates_go [] "w4"
      [("/repositories/1/contents/a/Cargo.toml", Ecosystem.Cargo)]
      [mk_detected_update "/a" Ecosystem.Cargo]
    = build_updates_go [] "w4" [] [mk_detected_update "/a" Ecosystem.Cargo] ∧
    ([mk_detected_update "/a" Ecosystem.Cargo]).Pairwise
      (fun a b => a.directory ≠ b.directory ∨
        a.package_ecosystem ≠ b.package_ecosystem) := by
  have h := conflict_candidate_dropped [] "w4"
  exact ⟨h.1 "/repositories/1/contents/a/Cargo.toml" Ecosystem.Cargo []
      [mk_detected_update "/a" Ecosystem.Cargo] "/a" rfl rfl,
    h.2 false [("/repositories/1/contents/a/Cargo.toml", Ecosystem.Cargo)]
      [mk_detected_update "/a" Ecosystem.Cargo]
      (fun _ _ hl => Option.noConfusion hl) rfl⟩

/-- The detected-ecosystems loop appends, after the already-accepted prefix,
entries corresponding to an order-preserving subsequence of the detected
list (the dropped candidates are the conflict-check skips), each entry
built from its pair's normalized path and ecosystem with overrides
applied. -/
theorem build_updates_go_order (ov : OverridesMap) (name : String) :
    ∀ (eco : List (String × Ecosystem)) (acc us : List Update),
      build_updates_go ov name eco acc = .ok us →
      ∃ sub : List ((String × Ecosystem) × Update),
        List.Sublist (sub.map Prod.fst) eco ∧
        us = acc ++ sub.map Prod.snd ∧
        ∀ p ∈ sub, ∃ dir, normalize_path p.1.1 = some dir ∧
          apply_override (mk_detected_update dir p.1.2) ov name p.1.2 =
            .ok p.2 := by
  intro eco
  induction eco with
  | nil =>
    intro acc us h
    simp only [build_updates_go, Except.ok.injEq] at h
    exact ⟨[], List.Sublist.refl _, by simp [← h],
      fun p hp => absurd hp (List.not_mem_nil p)⟩
  | cons pe rest ih =>
    intro acc us h
    obtain ⟨rawPath, ecosystem⟩ := pe
    simp only [build_updates_go] at h
    cases hn : normalize_path rawPath with
    | none => simp only [hn] at h; cases h
    | some path =>
      simp only [hn] at h
      by_cases hg : (acc.any (fun u => u.directory == some path &&
          u.package_ecosystem == ecosystem.toString)) = true
      · rw [if_pos hg] at h
        obtain ⟨sub, hsub, hus, hprop⟩ := ih acc us h
        exact ⟨sub, hsub.cons _, hus, hprop⟩
      · rw [if_neg hg] at h
        cases ha : apply_override (mk_detected_update path ecosystem) ov name
            ecosystem with
        | error e => rw [ha] at h; cases h
        | ok u' =>
          rw [ha] at h
          obtain ⟨sub, hsub, hus, hprop⟩ := ih (acc ++ [u']) us h
          refine ⟨((rawPath, ecosystem), u') :: sub, ?_, ?_, ?_⟩
          · exact hsub.cons₂ _
          · rw [hus, List.append_assoc]
            rfl
          · intro p hp
            rcases List.mem_cons.mp hp with hp | hp
            · rw [hp]
              exact ⟨path, hn, ha⟩
            · exact hprop p hp

/-- C6: the update list built for one repository is the CI entry first
(when the repository has a CI config), then entries for an
order-preserving subsequence of the detected `(path, ecosystem)` list —
detected entries appear in scan/discovery order — and a nonempty list is
carried verbatim into the final configuration document. -/
theorem build_updates_ordered (ov : OverridesMap) (name : String)
    (has_gha : Bool) (eco : List (String × Ecosystem)) (us : List Update)
    (regs : List (String × Registry))
    (h : build_updates ov name has_gha eco = .ok us) :
    ∃ (ci : List Update) (sub : List ((String × Ecosystem) × Update)),
      us = ci ++ sub.map Prod.snd ∧
      List.Sublist (sub.map Prod.fst) eco ∧
      (has_gha = true → ∃ u0,
        apply_override gha_update ov name Ecosystem.GitHubActions = .ok u0 ∧
        ci = [u0]) ∧
      (has_gha = false → ci = []) ∧
      (∀ p ∈ sub, ∃ dir, normalize_path p.1.1 = some dir ∧
        apply_override (mk_detected_update dir p.1.2) ov name p.1.2 =
          .ok p.2) ∧
      (us ≠ [] → build_config regs us =
        some { version := 2, updates := us,
               registries := if regs.isEmpty then none else some regs }) := by
  unfold build_updates at h
  cases has_gha with
  | false =>
    simp only [Bool.false_eq_true, if_false] at h
    obtain ⟨sub, hsub, hus, hprop⟩ := build_updates_go_order ov name eco [] us h
    refine ⟨[], sub, by simpa using hus, hsub,
      fun hc => absurd hc (by simp), fun _ => rfl, hprop, ?_⟩
    intro hne
    unfold build_config
    rw [if_neg (by simpa [List.isEmpty_iff] using hne)]
  | true =>
    simp only [if_true] at h
    cases ha : apply_override gha_update ov name Ecosystem.GitHubActions with
    | error e => rw [ha] at h; cases h
    | ok u0 =>
      rw [ha] at h
      simp only [Except.map] at h
      obtain ⟨sub, hsub, hus, hprop⟩ :=
        build_updates_go_order ov name eco [u0] us h
      refine ⟨[u0], sub, hus, hsub, fun _ => ⟨u0, rfl, rfl⟩,
        fun hc => absurd hc (by simp), hprop, ?_⟩
      intro hne
      unfold build_config
      rw [if_neg (by simpa [List.isEmpty_iff] using hne)]

/-- The detected list used by the C6 witness: one cargo manifest at the
repository root. -/
def w6_eco : List (String × Ecosystem) :=
  [("/repositories/1/contents/Cargo.toml", Ecosystem.Cargo)]

/-- C6 witness: the ordering statement instantiated on a repository with a
CI config and one detected cargo manifest, with no overrides. -/
theorem build_updates_ordered_witness :
    ∃ (ci : List Update) (sub : List ((String × Ecosystem) × Update)),
      [gha_update, mk_detected_update "/" Ecosystem.Cargo] =
        ci ++ sub.map Prod.snd ∧
      List.Sublist (sub.map Prod.fst) w6_eco ∧
      (true = true → ∃ u0,
        apply_override gha_update [] "w6" Ecosystem.GitHubActions = .ok u0 ∧
        ci = [u0]) ∧
      (true = false → ci = []) ∧
      (∀ p ∈ sub, ∃ dir, normalize_path p.1.1 = some dir ∧
        apply_override (mk_detected_update dir p.1.2) [] "w6" p.1.2 =
          .ok p.2) ∧
      ([gha_update, mk_detected_update "/" Ecosystem.Cargo] ≠ [] →
        build_config [] [gha_update, mk_detected_update "/" Ecosystem.Cargo] =
          some { version := 2,
                 updates := [gha_update, mk_detected_update "/" Ecosystem.Cargo],
                 registries := if ([] : List (String × Registry)).isEmpty
                   then none else some [] }) :=
  build_updates_ordered [] "w6" true w6_eco
    [gha_update, mk_detected_update "/" Ecosystem.Cargo] [] rfl

end Ciso
